import Mathlib

/-!
Verification of the `otel-example-go` repository against its specification.

The repository wires a pre-built OpenTelemetry SDK: the substantive
functions under `src/` are `getSampler`/`GetSampler`, `handleErr`,
`InitProvider`, `InitProviderWithJaegerExporter`, `getPackage` and the
`/packages/{id}` handler.  The propagation, span-recording and export
machinery lives in the SDK, outside the repository; where a claim is about
that machinery it is modelled from the specification (each such definition
says so in its doc comment).  Machine integers do not occur; times and
identifiers are modelled as `Nat`, the sampling ratio as `ℚ`.
-/

namespace Otel

/-! ## Context Carrier and propagation (spec §3, §4.1, §6)

Modelled from the spec: the repository only installs the SDK's
`TraceContext` and `Baggage` propagators (`otel.SetTextMapPropagator`, see
`InitProvider` in `src/unnamed/part_000`); the `extract`/`inject` wire
format itself is SDK code absent from `src/`.  Headers follow §6: one field
`version-traceid-spanid-sampledflag`, one field `key1=value1,key2=value2`.
-/

/-- A context carrier (spec §3): trace id, span id, baggage, sampled flag.
Identifier tokens and baggage strings are modelled as `List Char`. -/
structure Carrier where
  traceId : List Char
  spanId : List Char
  baggage : List (List Char × List Char)
  sampled : Bool
  deriving DecidableEq, Repr

/-- The two propagation header fields of spec §6. -/
structure Headers where
  traceparent : List Char
  baggageHeader : List Char
  deriving DecidableEq, Repr

/-- Modelled from the spec: the fixed version token of the traceparent field. -/
def versionField : List Char := ['0', '0']

/-- Modelled from the spec: the sampled flag rendered as a header token. -/
def sampledFlag (b : Bool) : List Char := if b then ['0', '1'] else ['0', '0']

/-- Modelled from the spec: one baggage entry rendered as `key=value`. -/
def injectEntry (e : List Char × List Char) : List Char := e.1 ++ '=' :: e.2

/-- Modelled from the spec: `inject(carrier) -> headers` (spec §4.1), the
traceparent field as hyphen-delimited tokens and the baggage field as
comma-separated `key=value` pairs (spec §6). -/
def inject (c : Carrier) : Headers :=
  { traceparent :=
      ['-'].intercalate [versionField, c.traceId, c.spanId, sampledFlag c.sampled]
    baggageHeader := [','].intercalate (c.baggage.map injectEntry) }

/-- Modelled from the spec: parse the sampled-flag token. -/
def parseFlag (xs : List Char) : Option Bool :=
  if xs = ['0', '1'] then some true
  else if xs = ['0', '0'] then some false
  else none

/-- Modelled from the spec: parse one `key=value` baggage entry. -/
def parseEntry (xs : List Char) : Option (List Char × List Char) :=
  match xs.splitOn '=' with
  | [k, v] => if k ≠ [] ∧ v ≠ [] then some (k, v) else none
  | _ => none

/-- Modelled from the spec: parse a list of `key=value` tokens, failing if
any token is malformed. -/
def parseEntries : List (List Char) → Option (List (List Char × List Char))
  | [] => some []
  | x :: xs =>
    match parseEntry x, parseEntries xs with
    | some e, some es => some (e :: es)
    | _, _ => none

/-- Modelled from the spec: parse the comma-separated baggage field; an
empty field is an empty baggage. -/
def parseBaggage (xs : List Char) : Option (List (List Char × List Char)) :=
  if xs = [] then some []
  else parseEntries (xs.splitOn ',')

/-- Modelled from the spec: `extract(headers) -> Carrier | none` (spec §4.1),
returning `none` (not an error) on malformed input. -/
def extract (h : Headers) : Option Carrier :=
  match h.traceparent.splitOn '-' with
  | [v, t, s, f] =>
    match parseFlag f, parseBaggage h.baggageHeader with
    | some b, some bag =>
      if v = versionField ∧ t ≠ [] ∧ s ≠ [] then
        some { traceId := t, spanId := s, baggage := bag, sampled := b }
      else none
    | _, _ => none
  | _ => none

/-- An identifier token is nonempty and free of the `-` delimiter. -/
def validToken (xs : List Char) : Prop := xs ≠ [] ∧ '-' ∉ xs

/-- A baggage entry has a nonempty key and value, neither containing the
`,` or `=` delimiters (spec §3: printable, size-bounded strings). -/
def validEntry (e : List Char × List Char) : Prop :=
  e.1 ≠ [] ∧ e.2 ≠ [] ∧ ',' ∉ e.1 ∧ '=' ∉ e.1 ∧ ',' ∉ e.2 ∧ '=' ∉ e.2

/-- A valid carrier (spec §3 invariant): well-formed identifier tokens,
well-formed baggage entries, and unique baggage keys. -/
def ValidCarrier (c : Carrier) : Prop :=
  validToken c.traceId ∧ validToken c.spanId ∧
    (∀ e ∈ c.baggage, validEntry e) ∧ (c.baggage.map Prod.fst).Nodup

instance (xs : List Char) : Decidable (validToken xs) := by
  unfold validToken; infer_instance

instance (e : List Char × List Char) : Decidable (validEntry e) := by
  unfold validEntry; infer_instance

instance (c : Carrier) : Decidable (ValidCarrier c) := by
  unfold ValidCarrier; infer_instance

theorem parseFlag_sampledFlag (b : Bool) : parseFlag (sampledFlag b) = some b := by
  cases b <;> rfl

theorem intercalate_pair (k v : List Char) :
    ['='].intercalate [k, v] = k ++ '=' :: v := by
  simp [List.intercalate]

theorem parseEntry_injectEntry (e : List Char × List Char) (h : validEntry e) :
    parseEntry (injectEntry e) = some e := by
  obtain ⟨hk, hv, _, hke, _, hve⟩ := h
  have hsplit : (injectEntry e).splitOn '=' = [e.1, e.2] := by
    rw [injectEntry, ← intercalate_pair]
    refine List.splitOn_intercalate [e.1, e.2] '=' ?_ (by simp)
    intro l hl
    rw [List.mem_cons, List.mem_singleton] at hl
    rcases hl with rfl | rfl
    · exact hke
    · exact hve
  simp [parseEntry, hsplit, hk, hv]

theorem parseEntries_map (l : List (List Char × List Char))
    (h : ∀ e ∈ l, validEntry e) :
    parseEntries (l.map injectEntry) = some l := by
  induction l with
  | nil => rfl
  | cons e rest ih =>
    have he : validEntry e := h e (List.mem_cons_self e rest)
    have hrest : ∀ x ∈ rest, validEntry x := fun x hx => h x (List.mem_cons_of_mem e hx)
    simp [parseEntries, parseEntry_injectEntry e he, ih hrest]

theorem injectEntry_ne_nil (e : List Char × List Char) :
    injectEntry e ≠ [] := by
  intro hc
  rw [injectEntry] at hc
  exact absurd hc (by simp)

theorem intercalate_cons_eq_append (sep x : List Char) (xs : List (List Char)) :
    ∃ suffix, sep.intercalate (x :: xs) = x ++ suffix := by
  cases xs with
  | nil => exact ⟨[], by simp [List.intercalate]⟩
  | cons y ys =>
    refine ⟨sep ++ sep.intercalate (y :: ys), ?_⟩
    simp [List.intercalate, List.intersperse_cons_cons]

theorem parseBaggage_inject (l : List (List Char × List Char))
    (h : ∀ e ∈ l, validEntry e) :
    parseBaggage ([','].intercalate (l.map injectEntry)) = some l := by
  cases l with
  | nil => rfl
  | cons e rest =>
    have he : validEntry e := h e (List.mem_cons_self e rest)
    have hne : [','].intercalate ((e :: rest).map injectEntry) ≠ [] := by
      obtain ⟨suffix, hs⟩ :=
        intercalate_cons_eq_append [','] (injectEntry e) (rest.map injectEntry)
      rw [List.map_cons, hs]
      intro hc
      exact injectEntry_ne_nil e (List.append_eq_nil.mp hc).1
    have hsplit : ([','].intercalate ((e :: rest).map injectEntry)).splitOn ',' =
        (e :: rest).map injectEntry := by
      refine List.splitOn_intercalate ((e :: rest).map injectEntry) ',' ?_ (by simp)
      intro l hl
      rw [List.mem_map] at hl
      obtain ⟨x, hx, rfl⟩ := hl
      obtain ⟨_, _, hk, _, hv, _⟩ := h x hx
      intro hmem
      rw [injectEntry, List.mem_append, List.mem_cons] at hmem
      rcases hmem with hmem | hmem | hmem
      · exact hk hmem
      · exact absurd hmem (by decide)
      · exact hv hmem
    rw [parseBaggage, if_neg hne, hsplit]
    exact parseEntries_map (e :: rest) h

/-- C2: for every valid context carrier `c`, extracting the headers produced
by injecting `c` yields `c` again: `extract (inject c) = some c`, so `inject`
is the exact inverse of `extract` on valid carriers. -/
theorem propagation_round_trip (c : Carrier) (h : ValidCarrier c) :
    extract (inject c) = some c := by
  obtain ⟨t, s, bag, smp⟩ := c
  obtain ⟨⟨ht1, ht2⟩, ⟨hs1, hs2⟩, hbag, -⟩ := h
  have hflag : '-' ∉ sampledFlag smp := by cases smp <;> decide
  have hsplit : (['-'].intercalate [versionField, t, s, sampledFlag smp]).splitOn '-' =
      [versionField, t, s, sampledFlag smp] := by
    refine List.splitOn_intercalate _ '-' ?_ (by simp)
    intro l hl
    rw [List.mem_cons, List.mem_cons, List.mem_cons, List.mem_singleton] at hl
    rcases hl with rfl | rfl | rfl | rfl
    · decide
    · exact ht2
    · exact hs2
    · exact hflag
  simp only [extract, inject]
  rw [hsplit]
  simp [parseFlag_sampledFlag, parseBaggage_inject bag hbag, ht1, hs1]

/-- A concrete valid carrier used to witness the round-trip property. -/
def exampleCarrier : Carrier :=
  { traceId := "abc123".toList
    spanId := "def456".toList
    baggage := [("destination".toList, "newyork".toList),
                ("transportation".toList, "truck".toList)]
    sampled := true }

/-- Witness for C2: the round-trip property applied to a concrete valid
carrier. -/
theorem propagation_round_trip_witness :
    ValidCarrier exampleCarrier ∧ extract (inject exampleCarrier) = some exampleCarrier :=
  ⟨by decide, propagation_round_trip exampleCarrier (by decide)⟩

/-- C5: extracting the inbound headers
`traceparent: 00-abc123-def456-01` and
`baggage: destination=newyork,transportation=truck` yields a carrier whose
sampled flag is `true` and whose baggage is exactly
`destination ↦ newyork, transportation ↦ truck`. -/
theorem extract_concrete_headers :
    extract { traceparent := "00-abc123-def456-01".toList
              baggageHeader := "destination=newyork,transportation=truck".toList } =
      some { traceId := "abc123".toList
             spanId := "def456".toList
             baggage := [("destination".toList, "newyork".toList),
                         ("transportation".toList, "truck".toList)]
             sampled := true } := by
  decide

/-! ## Sampler (spec §4.4; `getSampler` in `src/unnamed/part_000` lines
235–248 and `GetSampler` referenced from `src/commons/telemetry/jaeger.go`) -/

/-- Sampling policies the repository configures: `AlwaysSample`,
`TraceIDRatioBased(ratio)` and `ParentBased(root)`, embedded from the
`sdktrace` constructors used in `getSampler`.  The ratio is a rational. -/
inductive Sampler where
  | alwaysSample : Sampler
  | traceIDRatioBased (ratio : ℚ) : Sampler
  | parentBased (root : Sampler) : Sampler
  deriving DecidableEq, Repr

/-- Embedded from `getSampler` (`src/unnamed/part_000` lines 238–248): switch
on the `GO_ENV` environment value; `development` and the default case yield
`AlwaysSample`, `production` yields `ParentBased(TraceIDRatioBased(0.5))`. -/
def getSampler (goEnv : String) : Sampler :=
  match goEnv with
  | "development" => Sampler.alwaysSample
  | "production" => Sampler.parentBased (Sampler.traceIDRatioBased (1 / 2))
  | _ => Sampler.alwaysSample

/-- Modelled from the spec: the deterministic trace-id-ratio decision of
§4.4 (the SDK's `TraceIDRatioBased` implementation is not in `src/`): a
pseudo-random value derived from the trace id (its low 63 bits) is compared
against the ratio scaled to the same range. -/
def ratioDecide (traceId : ℕ) (ratio : ℚ) : Bool :=
  ((traceId % 2 ^ 63 : ℕ) : ℚ) < ratio * 2 ^ 63

/-- Modelled from the spec: `decide(trace_id, policy) -> bool` of §4.4
(pure and total), extended with the parent sampled flag consumed by
`parent_based`: it honors an inherited `sampled` flag when present and
otherwise delegates to the inner policy. -/
def Sampler.decide (s : Sampler) (parentSampled : Option Bool) (traceId : ℕ) : Bool :=
  match s with
  | Sampler.alwaysSample => true
  | Sampler.traceIDRatioBased ratio => ratioDecide traceId ratio
  | Sampler.parentBased root =>
    match parentSampled with
    | some b => b
    | none => Sampler.decide root none traceId

/-- C3: the sampling policy is always-sample unless explicitly configured
otherwise: every `GO_ENV` value other than `production` yields a sampler
that always samples, while `production` yields the parent-based policy over
a trace-id-ratio policy with the configured ratio `0.5`; the parent-based
policy honors an inherited sampled flag when present and otherwise
delegates to its inner policy. -/
theorem sampler_policy_selection (env : String) (h : env ≠ "production") :
    (∀ parentSampled traceId,
        Sampler.decide (getSampler env) parentSampled traceId = true) ∧
    getSampler "production" =
      Sampler.parentBased (Sampler.traceIDRatioBased (1 / 2)) ∧
    (∀ root b traceId,
        Sampler.decide (Sampler.parentBased root) (some b) traceId = b) ∧
    (∀ root traceId,
        Sampler.decide (Sampler.parentBased root) none traceId =
          Sampler.decide root none traceId) := by
  have halways : getSampler env = Sampler.alwaysSample := by
    unfold getSampler
    split
    · rfl
    · exact absurd rfl h
    · rfl
  exact ⟨fun _ _ => by rw [halways]; rfl, rfl, fun _ _ _ => rfl, fun _ _ => rfl⟩

/-- Witness for C3: the policy-selection theorem applied at the concrete
environment value `development`. -/
theorem sampler_policy_selection_witness :
    ("development" : String) ≠ "production" ∧
      ((∀ parentSampled traceId,
          Sampler.decide (getSampler "development") parentSampled traceId = true) ∧
       getSampler "production" =
         Sampler.parentBased (Sampler.traceIDRatioBased (1 / 2)) ∧
       (∀ root b traceId,
           Sampler.decide (Sampler.parentBased root) (some b) traceId = b) ∧
       (∀ root traceId,
           Sampler.decide (Sampler.parentBased root) none traceId =
             Sampler.decide root none traceId)) :=
  ⟨by decide, sampler_policy_selection "development" (by decide)⟩

/-- C4: the trace-id-ratio sampling decision is deterministic: any two
evaluations of `decide` on the ratio policy with the same trace id and the
same ratio — even with different inherited parent flags, as in different
processes — return the same boolean. -/
theorem ratio_decision_deterministic (t₁ t₂ : ℕ) (p₁ p₂ : ℚ)
    (par₁ par₂ : Option Bool) (ht : t₁ = t₂) (hp : p₁ = p₂) :
    Sampler.decide (Sampler.traceIDRatioBased p₁) par₁ t₁ =
      Sampler.decide (Sampler.traceIDRatioBased p₂) par₂ t₂ := by
  subst ht
  subst hp
  rfl

/-- Witness for C4: determinism of the ratio decision at a concrete trace
id and ratio. -/
theorem ratio_decision_deterministic_witness :
    (42 : ℕ) = 42 ∧ (1 / 2 : ℚ) = 1 / 2 ∧
      Sampler.decide (Sampler.traceIDRatioBased (1 / 2)) none 42 =
        Sampler.decide (Sampler.traceIDRatioBased (1 / 2)) (some false) 42 :=
  ⟨rfl, rfl, ratio_decision_deterministic 42 42 (1 / 2) (1 / 2) none (some false) rfl rfl⟩

/-! ## Span Record, `end()` and the Span Tree Accumulator (spec §3, §4.2, §4.3)

Modelled from the spec: the repository only calls the SDK's span API
(`span.End()`, `span.AddEvent`, `span.RecordError` in `src/app1/main.go`);
the span state machine itself is SDK code absent from `src/`. -/

/-- Span status (spec §3). -/
inductive SpanStatus where
  | unset : SpanStatus
  | ok : SpanStatus
  | error (message : String) : SpanStatus
  deriving DecidableEq, Repr

/-- Modelled from the spec: a Span Record (spec §3), with times as `ℕ` and
`endTime = none` while the span is open. -/
structure SpanRecord where
  traceId : ℕ
  spanId : ℕ
  parentSpanId : Option ℕ
  name : String
  startTime : ℕ
  endTime : Option ℕ
  events : List (String × ℕ)
  status : SpanStatus
  deriving DecidableEq, Repr

/-- A span is closed exactly when its end time has been stamped. -/
def SpanRecord.closed (s : SpanRecord) : Bool := s.endTime.isSome

/-- Modelled from the spec: a span handle together with its owning Span
Tree Accumulator (spec §4.3), which collects the spans submitted to it. -/
structure TraceState where
  span : SpanRecord
  submitted : List SpanRecord
  deriving DecidableEq, Repr

/-- Modelled from the spec: `span_handle.end()` (spec §4.2): on an open
span it stamps `end_time`, transitions the span to closed and submits it to
the owning accumulator; on a closed span it is a no-op. -/
def TraceState.endSpan (st : TraceState) (now : ℕ) : TraceState :=
  if st.span.closed then st
  else
    let s := { st.span with endTime := some now }
    { span := s, submitted := st.submitted ++ [s] }

/-- C6: the first call to `end()` on an open span handle stamps the end
time, transitions the span from open to closed, and submits it to the
accumulator exactly once; every subsequent `end()` on the same handle has
no observable effect. -/
theorem end_idempotent (st : TraceState) (now later : ℕ)
    (hopen : st.span.closed = false) :
    ((st.endSpan now).span.endTime = some now) ∧
    ((st.endSpan now).span.closed = true) ∧
    ((st.endSpan now).submitted = st.submitted ++ [(st.endSpan now).span]) ∧
    ((st.endSpan now).endSpan later = st.endSpan now) := by
  have h1 : st.endSpan now =
      { span := { st.span with endTime := some now }
        submitted := st.submitted ++ [{ st.span with endTime := some now }] } := by
    rw [TraceState.endSpan, hopen]
    rfl
  refine ⟨by rw [h1], by rw [h1]; rfl, by rw [h1], ?_⟩
  rw [h1, TraceState.endSpan]
  rfl

/-- A concrete open span handle used to witness the spec claims. -/
def exampleOpenState : TraceState :=
  { span :=
      { traceId := 7
        spanId := 1
        parentSpanId := none
        name := "getPackage"
        startTime := 10
        endTime := none
        events := []
        status := SpanStatus.unset }
    submitted := [] }

/-- Witness for C6: ending a concrete open span once and then again. -/
theorem end_idempotent_witness :
    exampleOpenState.span.closed = false ∧
      ((exampleOpenState.endSpan 12).span.endTime = some 12) ∧
      ((exampleOpenState.endSpan 12).span.closed = true) ∧
      ((exampleOpenState.endSpan 12).submitted =
        exampleOpenState.submitted ++ [(exampleOpenState.endSpan 12).span]) ∧
      ((exampleOpenState.endSpan 12).endSpan 99 = exampleOpenState.endSpan 12) :=
  ⟨by decide, end_idempotent exampleOpenState 12 99 (by decide)⟩

/-- C7: once an open span has been closed by `end()` under a monotone clock
(the end instant is not before the span's start instant), its recorded end
time is greater than or equal to its start time. -/
theorem end_time_ge_start_time (st : TraceState) (now e : ℕ)
    (hopen : st.span.endTime = none)
    (hmono : st.span.startTime ≤ now)
    (hclosed : (st.endSpan now).span.endTime = some e) :
    (st.endSpan now).span.startTime ≤ e := by
  have hop : st.span.closed = false := by
    rw [SpanRecord.closed, hopen]
    rfl
  rw [TraceState.endSpan, hop] at hclosed ⊢
  simp only [Bool.false_eq_true, if_false] at hclosed ⊢
  obtain rfl : now = e := by
    simpa using hclosed
  simpa using hmono

/-- Witness for C7: the end-time invariant on a concrete span closed at a
later instant. -/
theorem end_time_ge_start_time_witness :
    exampleOpenState.span.endTime = none ∧
      exampleOpenState.span.startTime ≤ 12 ∧
      (exampleOpenState.endSpan 12).span.endTime = some 12 ∧
      (exampleOpenState.endSpan 12).span.startTime ≤ 12 :=
  ⟨by decide, by decide, by decide,
    end_time_ge_start_time exampleOpenState 12 12 (by decide) (by decide) (by decide)⟩

/-! ## Exporter Sink (spec §4.5)

Modelled from the spec: the repository only installs the SDK's batch span
processor (`sdktrace.NewBatchSpanProcessor` in `src/unnamed/part_000` and
`trace.WithBatcher` in `src/commons/telemetry/jaeger.go`); the bounded
queue itself is SDK code absent from `src/`. -/

/-- Modelled from the spec: the Exporter Sink's bounded queue (spec §4.5):
a configurable capacity, the buffered spans (oldest first) and the
dropped-span diagnostic counter. -/
structure Sink where
  capacity : ℕ
  queue : List SpanRecord
  dropped : ℕ
  deriving DecidableEq, Repr

/-- Modelled from the spec: the non-blocking producing call (spec §4.5): a
total function that appends when there is room and otherwise drops the
oldest buffered spans, incrementing the dropped counter. -/
def Sink.enqueue (k : Sink) (s : SpanRecord) : Sink :=
  if k.queue.length < k.capacity then { k with queue := k.queue ++ [s] }
  else
    { k with
        queue := (k.queue ++ [s]).drop (k.queue.length + 1 - k.capacity)
        dropped := k.dropped + (k.queue.length + 1 - k.capacity) }

/-- A sequence of producing calls against the sink. -/
def Sink.run (k : Sink) (xs : List SpanRecord) : Sink := xs.foldl Sink.enqueue k

theorem Sink.capacity_enqueue (k : Sink) (s : SpanRecord) :
    (k.enqueue s).capacity = k.capacity := by
  rw [Sink.enqueue]
  split <;> rfl

theorem Sink.length_enqueue_le (k : Sink) (s : SpanRecord)
    (h : k.queue.length ≤ k.capacity) :
    (k.enqueue s).queue.length ≤ k.capacity := by
  rw [Sink.enqueue]
  split
  · next hlt => simpa using hlt
  · next hge =>
    simp only [List.length_drop, List.length_append, List.length_singleton]
    omega

theorem Sink.dropped_le_enqueue (k : Sink) (s : SpanRecord) :
    k.dropped ≤ (k.enqueue s).dropped := by
  rw [Sink.enqueue]
  split
  · exact le_refl _
  · exact Nat.le_add_right _ _

theorem Sink.run_nil (k : Sink) : k.run [] = k := rfl

theorem Sink.run_cons (k : Sink) (x : SpanRecord) (xs : List SpanRecord) :
    k.run (x :: xs) = (k.enqueue x).run xs := rfl

theorem Sink.capacity_run (k : Sink) (xs : List SpanRecord) :
    (k.run xs).capacity = k.capacity := by
  induction xs generalizing k with
  | nil => rfl
  | cons x rest ih =>
    rw [Sink.run_cons, ih (k.enqueue x), Sink.capacity_enqueue]

theorem Sink.length_run_le (k : Sink) (xs : List SpanRecord)
    (h : k.queue.length ≤ k.capacity) :
    (k.run xs).queue.length ≤ k.capacity := by
  induction xs generalizing k with
  | nil => exact h
  | cons x rest ih =>
    rw [Sink.run_cons]
    have harg : (k.enqueue x).queue.length ≤ (k.enqueue x).capacity := by
      rw [Sink.capacity_enqueue]
      exact Sink.length_enqueue_le k x h
    have := ih (k.enqueue x) harg
    rwa [Sink.capacity_enqueue] at this

theorem Sink.dropped_le_run (k : Sink) (xs : List SpanRecord) :
    k.dropped ≤ (k.run xs).dropped := by
  induction xs generalizing k with
  | nil => exact le_refl _
  | cons x rest ih =>
    rw [Sink.run_cons]
    exact le_trans (Sink.dropped_le_enqueue k x) (ih (k.enqueue x))

theorem Sink.run_append (k : Sink) (xs ys : List SpanRecord) :
    k.run (xs ++ ys) = (k.run xs).run ys := by
  simp [Sink.run, List.foldl_append]

/-- C8: along any sequence of producing calls whose length exceeds the
configured capacity, no enqueue blocks — every reachable queue stays within
capacity and each call completes as a total step; overflow of a full
nonempty queue drops the oldest buffered span while incrementing the
dropped counter; and the dropped-span counter never decreases between any
two steps of the execution. -/
theorem sink_never_blocks_drops_oldest_monotone (k : Sink) (xs : List SpanRecord)
    (_hcap : k.capacity < xs.length) (hq : k.queue.length ≤ k.capacity) :
    (∀ n, (k.run (xs.take n)).queue.length ≤ k.capacity) ∧
    (∀ (q : Sink) (s : SpanRecord), q.queue.length = q.capacity → 0 < q.capacity →
        (q.enqueue s).queue = q.queue.tail ++ [s] ∧
        (q.enqueue s).dropped = q.dropped + 1) ∧
    (∀ n m, n ≤ m →
        (k.run (xs.take n)).dropped ≤ (k.run (xs.take m)).dropped) := by
  refine ⟨fun n => Sink.length_run_le k (xs.take n) hq, fun q s hfull hpos => ?_, ?_⟩
  · have hnlt : ¬ q.queue.length < q.capacity := by omega
    have hqne : 1 ≤ q.queue.length := by omega
    constructor
    · rw [Sink.enqueue, if_neg hnlt]
      simp only [hfull, Nat.add_sub_cancel_left]
      rw [List.drop_append_of_le_length hqne, List.drop_one]
    · rw [Sink.enqueue, if_neg hnlt]
      simp [hfull]
  · intro n m hnm
    have h1 : (xs.take m).take n = xs.take n := by
      rw [List.take_take, min_eq_left hnm]
    have hsplit : xs.take m = xs.take n ++ (xs.take m).drop n := by
      conv_lhs => rw [← List.take_append_drop n (xs.take m)]
      rw [h1]
    rw [hsplit, Sink.run_append]
    exact Sink.dropped_le_run _ _

/-- A concrete closed span record used to exercise the sink. -/
def exampleClosedSpan : SpanRecord :=
  { traceId := 7
    spanId := 1
    parentSpanId := none
    name := "getPackage"
    startTime := 10
    endTime := some 12
    events := []
    status := SpanStatus.ok }

/-- A concrete sink of capacity 1 with an empty queue. -/
def exampleSink : Sink := { capacity := 1, queue := [], dropped := 0 }

/-- Witness for C8: a two-span production run against a capacity-1 sink. -/
theorem sink_never_blocks_witness :
    exampleSink.capacity < ([exampleClosedSpan, exampleClosedSpan] : List SpanRecord).length ∧
    exampleSink.queue.length ≤ exampleSink.capacity ∧
    ((∀ n, (exampleSink.run (([exampleClosedSpan, exampleClosedSpan] : List SpanRecord).take n)).queue.length ≤
        exampleSink.capacity) ∧
     (∀ (q : Sink) (s : SpanRecord), q.queue.length = q.capacity → 0 < q.capacity →
        (q.enqueue s).queue = q.queue.tail ++ [s] ∧
        (q.enqueue s).dropped = q.dropped + 1) ∧
     (∀ n m, n ≤ m →
        (exampleSink.run (([exampleClosedSpan, exampleClosedSpan] : List SpanRecord).take n)).dropped ≤
          (exampleSink.run (([exampleClosedSpan, exampleClosedSpan] : List SpanRecord).take m)).dropped)) :=
  ⟨by decide, by decide,
    sink_never_blocks_drops_oldest_monotone exampleSink
      [exampleClosedSpan, exampleClosedSpan] (by decide) (by decide)⟩

/-! ## `getPackage` and the `/packages/{id}` handler (`src/app1/main.go`) -/

/-- The mutable state of one span as driven through the OpenTelemetry span
API by the code in `src/app1/main.go`: the events added (name with string
attributes), the errors recorded, and whether `End()` has been called. -/
structure SpanOps where
  events : List (String × List (String × String))
  errors : List String
  ended : Bool
  deriving DecidableEq, Repr

/-- A freshly started span: no events, no errors, not ended. -/
def SpanOps.fresh : SpanOps := { events := [], errors := [], ended := false }

/-- `span.AddEvent(name, attrs)` as used in `src/app1/main.go`. -/
def SpanOps.addEvent (s : SpanOps) (name : String)
    (attrs : List (String × String)) : SpanOps :=
  { s with events := s.events ++ [(name, attrs)] }

/-- `span.RecordError(err)` as used in `src/app1/main.go`. -/
def SpanOps.recordError (s : SpanOps) (message : String) : SpanOps :=
  { s with errors := s.errors ++ [message] }

/-- `span.End()` as invoked by the deferred call in `getPackage`. -/
def SpanOps.endCall (s : SpanOps) : SpanOps := { s with ended := true }

/-- Embedded from `getPackage` (`src/app1/main.go` lines 100–111): start a
span, add the `getPackage` event with the `package` attribute, then either
add the `found package` event and return `"found package"` (when
`id == "123"`) or record the error `package not found` and return
`"unknown"`; the deferred `span.End()` runs on both paths. -/
def getPackage (id : String) : String × SpanOps :=
  let span := SpanOps.fresh
  let span := span.addEvent "getPackage" [("package", id)]
  if id = "123" then
    let span := span.addEvent "found package" []
    ("found package", span.endCall)
  else
    let span := span.recordError "package not found"
    ("unknown", span.endCall)

/-- C9: `getPackage` returns `"found package"` exactly when `id = "123"`
and `"unknown"` otherwise; the `found package` event is added exactly in
the found case, and the error `package not found` is recorded on the span
exactly in the other case. -/
theorem getPackage_found_iff (id : String) :
    ((getPackage id).1 = "found package" ↔ id = "123") ∧
    ((getPackage id).1 = "unknown" ↔ id ≠ "123") ∧
    ((("found package", ([] : List (String × String))) ∈ (getPackage id).2.events) ↔
      id = "123") ∧
    (("package not found" ∈ (getPackage id).2.errors) ↔ id ≠ "123") := by
  by_cases h : id = "123" <;>
    simp [getPackage, h, SpanOps.fresh, SpanOps.addEvent, SpanOps.recordError,
      SpanOps.endCall]

/-- Witness for C9: the `getPackage` characterization at the concrete ids
`"123"` and `"456"`. -/
theorem getPackage_found_iff_witness :
    (((getPackage "123").1 = "found package" ↔ ("123" : String) = "123") ∧
     ((getPackage "123").1 = "unknown" ↔ ("123" : String) ≠ "123") ∧
     ((("found package", ([] : List (String × String))) ∈ (getPackage "123").2.events) ↔
       ("123" : String) = "123") ∧
     (("package not found" ∈ (getPackage "123").2.errors) ↔ ("123" : String) ≠ "123")) ∧
    ((getPackage "456").1 = "unknown") :=
  ⟨getPackage_found_iff "123", by decide⟩

/-- The HTTP response writer as the handler drives it: the bodies written
and the status code, which starts at Go's implicit default `200` and is
never changed by the handler (no `WriteHeader` call occurs). -/
structure Response where
  writes : List String
  status : ℕ
  deriving DecidableEq, Repr

/-- The response writer as handed to the handler: nothing written, implicit
status 200. -/
def Response.init : Response := { writes := [], status := 200 }

/-- `w.Write(body)` as used in the handler. -/
def Response.write (r : Response) (body : String) : Response :=
  { r with writes := r.writes ++ [body] }

/-- `baggage.Member(key).Value()`: the value of the baggage member, or the
empty string when the member is absent. -/
def bagValue (bag : List (String × String)) (key : String) : String :=
  match bag.find? (fun e => e.1 = key) with
  | some e => e.2
  | none => ""

/-- Embedded from the `/packages/{id:[0-9]+}` handler
(`src/app1/main.go` lines 37–55): call `getPackage`, read the
`destination` and `transportation` baggage members, add the
`Obtaining package` event on the request span, then write the single
reply `package is <r> (id <id>)\n`. -/
def packagesHandler (id : String) (bag : List (String × String))
    (w : Response) (span : SpanOps) : Response × SpanOps :=
  let pr := (getPackage id).1
  let destination := bagValue bag "destination"
  let transportation := bagValue bag "transportation"
  let span := span.addEvent "Obtaining package"
    [("destination", destination), ("transportation", transportation)]
  let reply := "package is " ++ pr ++ " (id " ++ id ++ ")" ++ "\n"
  (w.write reply, span)

/-- C10: for every request reaching the `/packages/{id}` handler, exactly
one response body is written, equal to `package is <r> (id <id>)\n` with
`<r>` the value returned by `getPackage`; the status code is never touched
(it stays at the writer's prior value, `200` for the initial writer), and a
package-not-found outcome is recorded only on the `getPackage` span, never
in the HTTP response. -/
theorem handler_single_write_no_error_response (id : String)
    (bag : List (String × String)) (w : Response) (span : SpanOps) :
    ((packagesHandler id bag w span).1.writes =
      w.writes ++ ["package is " ++ (getPackage id).1 ++ " (id " ++ id ++ ")" ++ "\n"]) ∧
    ((packagesHandler id bag w span).1.status = w.status) ∧
    ((packagesHandler id bag Response.init span).1.status = 200) ∧
    ((packagesHandler id bag Response.init span).1.writes.length = 1) ∧
    (id ≠ "123" →
      (packagesHandler id bag Response.init span).1.status = 200 ∧
      "package not found" ∈ (getPackage id).2.errors) := by
  refine ⟨rfl, rfl, rfl, rfl, fun h => ⟨rfl, ?_⟩⟩
  simp [getPackage, h, SpanOps.fresh, SpanOps.addEvent, SpanOps.recordError,
    SpanOps.endCall]

/-- Witness for C10: the handler theorem at a concrete not-found request. -/
theorem handler_single_write_witness :
    ((packagesHandler "7" [("destination", "newyork")] Response.init SpanOps.fresh).1.writes =
      Response.init.writes ++
        ["package is " ++ (getPackage "7").1 ++ " (id " ++ "7" ++ ")" ++ "\n"]) ∧
    ((packagesHandler "7" [("destination", "newyork")] Response.init SpanOps.fresh).1.status =
      Response.init.status) ∧
    ((packagesHandler "7" [("destination", "newyork")] Response.init SpanOps.fresh).1.status = 200) ∧
    ((packagesHandler "7" [("destination", "newyork")] Response.init SpanOps.fresh).1.writes.length = 1) ∧
    (("7" : String) ≠ "123" →
      (packagesHandler "7" [("destination", "newyork")] Response.init SpanOps.fresh).1.status = 200 ∧
      "package not found" ∈ (getPackage "7").2.errors) :=
  handler_single_write_no_error_response "7" [("destination", "newyork")]
    Response.init SpanOps.fresh

/-! ## Telemetry initialization error handling (`src/unnamed/part_000`
`InitProvider`/`handleErr`, `src/commons/telemetry/jaeger.go`)

Fallible external calls (resource creation, exporter construction) are
modelled by an `Option String` input holding the error the call returned,
if any.  `Except.error` models `log.Fatalf`, which aborts the whole
process and with it the business operation in flight; `Except.ok` models
normal continuation. -/

/-- Embedded from `handleErr` (`src/unnamed/part_000` lines 229–233):
`log.Fatalf(message)` — process abort — whenever the error is non-nil. -/
def handleErr (err : Option String) (message : String) : Except String Unit :=
  match err with
  | some _ => Except.error message
  | none => Except.ok ()

/-- Embedded from `InitProvider` (`src/unnamed/part_000` lines 160–227):
the resource, metric-exporter and trace-exporter construction results are
each passed through `handleErr`, so the first non-nil error aborts the
process. -/
def InitProvider (resErr metricErr traceErr : Option String) : Except String Unit :=
  match handleErr resErr "failed to create resource" with
  | Except.error m => Except.error m
  | Except.ok _ =>
    match handleErr metricErr "Failed to create the collector metric exporter" with
    | Except.error m => Except.error m
    | Except.ok _ =>
      match handleErr traceErr "Failed to create the collector trace exporter" with
      | Except.error m => Except.error m
      | Except.ok _ => Except.ok ()

/-- Embedded from `newResource` (`src/commons/telemetry/jaeger.go` lines
17–31): `log.Fatalf("%s: %v", "Failed to create resource", err)` on a
resource-creation error. -/
def newResource (resErr : Option String) : Except String Unit :=
  match resErr with
  | some _ => Except.error "Failed to create resource"
  | none => Except.ok ()

/-- Embedded from `InitProviderWithJaegerExporter`
(`src/commons/telemetry/jaeger.go` lines 43–55): a Jaeger exporter
construction error hits `log.Fatalf("error: %s", err.Error())`; otherwise
the provider is built around `newResource`. -/
def InitProviderWithJaegerExporter (expErr resErr : Option String) :
    Except String Unit :=
  match expErr with
  | some e => Except.error ("error: " ++ e)
  | none => newResource resErr

/-- Embedded from the shutdown closure returned by `InitProvider`
(`src/unnamed/part_000` lines 216–226): each shutdown error is handed to
`otel.Handle` (collected here in the result list); no path calls
`log.Fatalf`, so the codomain carries no `Except.error` value. -/
def otelShutdown (traceShutdownErr meterShutdownErr : Option String) :
    Except String (List String) :=
  Except.ok (traceShutdownErr.toList ++ meterShutdownErr.toList)

/-- C1 counterexample: a telemetry-core error — here a Jaeger exporter
construction failure — aborts the process (`log.Fatalf`, modelled as
`Except.error`), killing the business operation being observed; the claim
that telemetry errors are never fatal to the caller is therefore false of
this code. -/
theorem init_aborts_on_exporter_error :
    InitProviderWithJaegerExporter (some "connection refused") none =
      Except.error "error: connection refused" := rfl

/-- C1 (amended): telemetry errors during provider initialization —
resource creation, metric-exporter and trace-exporter construction — are
fatal to the process (`handleErr`/`log.Fatalf`), and initialization
succeeds exactly when none of them occurs; only the telemetry shutdown
path is non-fatal, handing its errors to `otel.Handle`. -/
theorem init_fatal_iff_shutdown_nonfatal
    (resErr metricErr traceErr tErr mErr : Option String) :
    (InitProvider resErr metricErr traceErr = Except.ok () ↔
      (resErr = none ∧ metricErr = none ∧ traceErr = none)) ∧
    (∀ e, InitProviderWithJaegerExporter (some e) resErr ≠ Except.ok ()) ∧
    (otelShutdown tErr mErr = Except.ok (tErr.toList ++ mErr.toList)) := by
  refine ⟨?_, fun e h => by simp [InitProviderWithJaegerExporter] at h, rfl⟩
  cases resErr <;> cases metricErr <;> cases traceErr <;>
    simp [InitProvider, handleErr]

end Otel
